import Mathlib

/-!
Verification of the resawesome resource dispatch engine.

Shallow embedding of the Python 2 sources:
  resawesome/util.py          (populate_args)
  resawesome/serialization.py (convert_arg)
  resawesome/resource.py      (class API: _access_level, encode, _call,
                               _commit, lookup, execute, create, read,
                               update, delete)

Python values are embedded as the inductive `Value`; Python exceptions
as the inductive `PyErr`; dictionaries as association lists on string
keys (the sources only ever use string keys for the mappings the claims
touch).  Fallible code returns `Except PyErr`.  Functions that may call
back into user-supplied resource code additionally return an invocation
log (a `List String`) recording which underlying resource callables
were actually executed, so that statements of the form "the hook is
never invoked" are expressible as theorems.
-/

namespace Resawesome

/-- Embedded Python runtime values.  `vres clsName ser` is an instance of
a class registered as a resource (its `_IS_RESOURCE` attribute is true);
`clsName` is the name reported by `type(v).__name__` and `ser` is the
value its serializer method would return, when it has one.  Floats are
modelled opaquely by integral representatives: no claim depends on float
arithmetic, and the spec treats the string-to-typed-value coercion table
as a pluggable external collaborator. -/
inductive Value where
  | vnone
  | vstr (s : String)
  | vint (n : Int)
  | vlong (n : Int)
  | vfloat (n : Int)
  | vbool (b : Bool)
  | vlist (xs : List Value)
  | vtuple (xs : List Value)
  | vdict (xs : List (String × Value))
  | vdatetime (iso : String)
  | vres (clsName : String) (ser : Option Value)

/-- Embedded Python exceptions.  The resource-specific exception classes
of resource.py each get a constructor; `nameError` covers both NameError
and UnboundLocalError (a name read before any assignment), which several
code paths in resource.py actually raise. -/
inductive PyErr where
  | notFound (msg : String)         -- ResourceNotFoundError
  | methodNotFound (msg : String)   -- ResourceMethodNotFoundError
  | accessDenied (msg : String)     -- ResourceAccessDeniedError
  | notAllowed (msg : String)       -- ResourceNotAllowedError
  | methodFailed (msg : String)     -- ResourceMethodFailedError
  | nameError (name : String)       -- NameError / UnboundLocalError
  | attributeError (name : String)  -- AttributeError
  | typeError (msg : String)        -- TypeError
  | valueError (msg : String)       -- ValueError
  | indexError                      -- IndexError
deriving DecidableEq

/-- Python `d[k]` lookup on a dict modelled as an association list. -/
def lookupA {α : Type} : List (String × α) → String → Option α
  | [], _ => Option.none
  | (k, v) :: rest, key => if k = key then some v else lookupA rest key

/-- Python `d[k] = v` on a dict modelled as an association list:
replaces the binding when the key is present, appends it otherwise. -/
def dictSet {α : Type} : List (String × α) → String → α → List (String × α)
  | [], key, v => [(key, v)]
  | (k, w) :: rest, key, v =>
    if k = key then (key, v) :: rest else (k, w) :: dictSet rest key v

/-- util.populate_args, lines 23-34: the body of the
`for i, arg_name in enumerate(arg_spec)` loop.  `i` is the enumeration
index, `kwargs` the accumulator dict.  At the call sites in resource.py
the `custom_args` parameter always receives the host environment and
`sent_args` the caller-controlled arguments. -/
def populateLoop (sent custom : List (String × Value)) :
    Nat → List String → List (String × Value) → List (String × Value)
  | _, [], kwargs => kwargs
  | i, argName :: rest, kwargs =>
    -- if i == 0 and (arg_name == 'self' or arg_name == 'cls'): continue
    if i = 0 ∧ (argName = "self" ∨ argName = "cls") then
      populateLoop sent custom (i + 1) rest kwargs
    else
      match lookupA custom argName with
      | some v => populateLoop sent custom (i + 1) rest (dictSet kwargs argName v)
      | Option.none =>
        match lookupA sent argName with
        | some v =>
          -- elif arg_name in sent_args and not arg_name.startswith('_')
          if argName.startsWith "_" then populateLoop sent custom (i + 1) rest kwargs
          else populateLoop sent custom (i + 1) rest (dictSet kwargs argName v)
        | Option.none => populateLoop sent custom (i + 1) rest kwargs

/-- util.populate_args, lines 23-34.  `argSpec` is
`getargspec(method).args`: the declared parameter names of the (unwrapped)
callable, in order. -/
def populate_args (argSpec : List String) (sent custom : List (String × Value)) :
    List (String × Value) :=
  populateLoop sent custom 0 argSpec []

/-- The per-parameter binding rule asserted by the claim: the environment
value when the environment has the name; else the caller value when the
caller supplied the name and it does not begin with the private marker;
else the parameter is omitted. -/
def bindRule (sent custom : List (String × Value)) (argName : String) : Option Value :=
  match lookupA custom argName with
  | some v => some v
  | Option.none =>
    match lookupA sent argName with
    | some v => if argName.startsWith "_" then Option.none else some v
    | Option.none => Option.none

theorem lookupA_dictSet_self {α : Type} (xs : List (String × α)) (k : String) (v : α) :
    lookupA (dictSet xs k v) k = some v := by
  induction xs with
  | nil => simp [dictSet, lookupA]
  | cons p rest ih =>
    obtain ⟨k', w⟩ := p
    by_cases h : k' = k <;> simp [dictSet, lookupA, h, ih]

theorem lookupA_dictSet_ne {α : Type} (xs : List (String × α)) (k key : String) (v : α)
    (h : key ≠ k) : lookupA (dictSet xs k v) key = lookupA xs key := by
  induction xs with
  | nil => simp [dictSet, lookupA, Ne.symm h]
  | cons p rest ih =>
    obtain ⟨k', w⟩ := p
    by_cases h' : k' = k
    · subst h'
      simp [dictSet, lookupA, Ne.symm h]
    · simp only [dictSet, if_neg h', lookupA]
      by_cases h'' : k' = key <;> simp [h'', ih]

theorem mem_dictSet {α : Type} (xs : List (String × α)) (k : String) (v : α)
    (p : String × α) (hp : p ∈ dictSet xs k v) : p = (k, v) ∨ p ∈ xs := by
  induction xs with
  | nil => simpa [dictSet] using hp
  | cons q rest ih =>
    obtain ⟨k', w⟩ := q
    by_cases h : k' = k
    · subst h
      simp [dictSet] at hp
      rcases hp with h1 | h1
      · exact Or.inl (by simp [h1])
      · exact Or.inr (by simp [h1])
    · simp [dictSet, h] at hp
      rcases hp with h1 | h1
      · exact Or.inr (by simp [h1])
      · rcases ih h1 with h2 | h2
        · exact Or.inl h2
        · exact Or.inr (by simp [h2])

theorem populateLoop_mem (sent custom : List (String × Value)) :
    ∀ (names : List String) (i : Nat) (kwargs : List (String × Value))
      (p : String × Value), p ∈ populateLoop sent custom i names kwargs →
      p.1 ∈ names ∨ p ∈ kwargs := by
  intro names
  induction names with
  | nil => intro i kwargs p hp; exact Or.inr (by simpa [populateLoop] using hp)
  | cons h rest ih =>
    intro i kwargs p hp
    rw [populateLoop] at hp
    -- the accumulator after one loop iteration is kwargs or a dictSet of it
    have step : ∀ kw', (p.1 ∈ rest ∨ p ∈ kw') →
        (kw' = kwargs ∨ ∃ v, kw' = dictSet kwargs h v) →
        p.1 ∈ h :: rest ∨ p ∈ kwargs := by
      intro kw' hmem hkw
      rcases hmem with hm | hm
      · exact Or.inl (List.mem_cons_of_mem _ hm)
      · rcases hkw with rfl | ⟨v, rfl⟩
        · exact Or.inr hm
        · rcases mem_dictSet kwargs h v p hm with h1 | h1
          · exact Or.inl (by simp [h1])
          · exact Or.inr h1
    split at hp
    · exact step kwargs (ih _ _ _ hp) (Or.inl rfl)
    · split at hp
      · exact step _ (ih _ _ _ hp) (Or.inr ⟨_, rfl⟩)
      · split at hp
        · split at hp
          · exact step kwargs (ih _ _ _ hp) (Or.inl rfl)
          · exact step _ (ih _ _ _ hp) (Or.inr ⟨_, rfl⟩)
        · exact step kwargs (ih _ _ _ hp) (Or.inl rfl)

theorem populateLoop_not_mem (sent custom : List (String × Value)) :
    ∀ (names : List String) (i : Nat) (kwargs : List (String × Value))
      (key : String), key ∉ names →
      lookupA (populateLoop sent custom i names kwargs) key = lookupA kwargs key := by
  intro names
  induction names with
  | nil => intro i kwargs key _; simp [populateLoop]
  | cons h rest ih =>
    intro i kwargs key hk
    have hkh : key ≠ h := fun e => hk (by simp [e])
    have hkr : key ∉ rest := fun e => hk (List.mem_cons_of_mem _ e)
    rw [populateLoop]
    split
    · exact ih _ _ _ hkr
    · split
      · rw [ih _ _ _ hkr, lookupA_dictSet_ne _ _ _ _ hkh]
      · split
        · split
          · exact ih _ _ _ hkr
          · rw [ih _ _ _ hkr, lookupA_dictSet_ne _ _ _ _ hkh]
        · exact ih _ _ _ hkr

theorem populateLoop_lookup_pos (sent custom : List (String × Value)) :
    ∀ (names : List String) (i : Nat) (kwargs : List (String × Value))
      (key : String), names.Nodup → i ≠ 0 → key ∈ names →
      lookupA kwargs key = Option.none →
      lookupA (populateLoop sent custom i names kwargs) key = bindRule sent custom key := by
  intro names
  induction names with
  | nil => intro i kwargs key _ _ hmem _; cases hmem
  | cons h rest ih =>
    intro i kwargs key hnd hi hmem hnone
    have hh : h ∉ rest := (List.nodup_cons.mp hnd).1
    have hndr : rest.Nodup := (List.nodup_cons.mp hnd).2
    rw [populateLoop]
    have hrecv : ¬(i = 0 ∧ (h = "self" ∨ h = "cls")) := fun ⟨e, _⟩ => hi e
    rw [if_neg hrecv]
    by_cases hkey : key = h
    · subst hkey
      -- the head parameter is the one we look up: processed in this
      -- iteration, untouched by the rest of the spec (Nodup)
      unfold bindRule
      cases hc : lookupA custom key with
      | some v =>
        simp only [hc]
        rw [populateLoop_not_mem sent custom rest _ _ key hh, lookupA_dictSet_self]
      | none =>
        simp only [hc]
        cases hs : lookupA sent key with
        | some v =>
          simp only [hs]
          by_cases hpriv : key.startsWith "_"
          · simp only [if_pos hpriv]
            rw [populateLoop_not_mem sent custom rest _ _ key hh, hnone]
          · simp only [if_neg hpriv]
            rw [populateLoop_not_mem sent custom rest _ _ key hh, lookupA_dictSet_self]
        | none =>
          simp only [hs]
          rw [populateLoop_not_mem sent custom rest _ _ key hh, hnone]
    · have hmemr : key ∈ rest := by
        rcases List.mem_cons.mp hmem with h1 | h1
        · exact absurd h1 hkey
        · exact h1
      -- the head is a different parameter: whatever it stores keeps the
      -- looked-up key unbound
      have hkw' : ∀ kw', (kw' = kwargs ∨ ∃ v, kw' = dictSet kwargs h v) →
          lookupA kw' key = Option.none := by
        intro kw' hkw
        rcases hkw with rfl | ⟨v, rfl⟩
        · exact hnone
        · rw [lookupA_dictSet_ne _ _ _ _ hkey]; exact hnone
      cases hc : lookupA custom h with
      | some v =>
        simp only [hc]
        exact ih (i + 1) _ key hndr (Nat.succ_ne_zero i) hmemr (hkw' _ (Or.inr ⟨v, rfl⟩))
      | none =>
        simp only [hc]
        cases hs : lookupA sent h with
        | some v =>
          simp only [hs]
          by_cases hpriv : h.startsWith "_"
          · simp only [if_pos hpriv]
            exact ih (i + 1) _ key hndr (Nat.succ_ne_zero i) hmemr hnone
          · simp only [if_neg hpriv]
            exact ih (i + 1) _ key hndr (Nat.succ_ne_zero i) hmemr (hkw' _ (Or.inr ⟨v, rfl⟩))
        | none =>
          simp only [hs]
          exact ih (i + 1) _ key hndr (Nat.succ_ne_zero i) hmemr hnone

/-- C2: for every declared parameter of a called method (excluding the
leading receiver parameter, the index-0 parameter named self or cls),
populate_args binds the environment value when the environment contains
the name; otherwise the caller-supplied value, only when the caller
supplied the name and it does not begin with the private marker; and it
never passes a key not declared by the parameter schema. -/
theorem c2_populate_args_binding (argSpec : List String)
    (sent custom : List (String × Value)) (hnd : argSpec.Nodup) :
    (∀ p, p ∈ populate_args argSpec sent custom → p.1 ∈ argSpec) ∧
    (∀ i (hi : i < argSpec.length),
      ¬(i = 0 ∧ (argSpec.get ⟨i, hi⟩ = "self" ∨ argSpec.get ⟨i, hi⟩ = "cls")) →
      lookupA (populate_args argSpec sent custom) (argSpec.get ⟨i, hi⟩) =
        bindRule sent custom (argSpec.get ⟨i, hi⟩)) := by
  constructor
  · intro p hp
    rcases populateLoop_mem sent custom argSpec 0 [] p hp with h1 | h1
    · exact h1
    · cases h1
  · intro i hi hrecv
    cases argSpec with
    | nil => exact absurd hi (by simp)
    | cons h rest =>
      have hh : h ∉ rest := (List.nodup_cons.mp hnd).1
      have hndr : rest.Nodup := (List.nodup_cons.mp hnd).2
      cases i with
      | zero =>
        have hget0 : (h :: rest).get ⟨0, hi⟩ = h := rfl
        rw [hget0] at hrecv ⊢
        have hrecv' : ¬(0 = 0 ∧ (h = "self" ∨ h = "cls")) := fun hx =>
          hrecv ⟨rfl, hx.2⟩
        unfold populate_args
        rw [populateLoop, if_neg hrecv']
        unfold bindRule
        cases hc : lookupA custom h with
        | some v =>
          simp only [hc]
          rw [populateLoop_not_mem sent custom rest _ _ h hh, lookupA_dictSet_self]
        | none =>
          simp only [hc]
          cases hs : lookupA sent h with
          | some v =>
            simp only [hs]
            by_cases hpriv : h.startsWith "_"
            · simp only [if_pos hpriv]
              rw [populateLoop_not_mem sent custom rest _ _ h hh]
              rfl
            · simp only [if_neg hpriv]
              rw [populateLoop_not_mem sent custom rest _ _ h hh, lookupA_dictSet_self]
          | none =>
            simp only [hs]
            rw [populateLoop_not_mem sent custom rest _ _ h hh]
            rfl
      | succ j =>
        have hj : j < rest.length := by simpa using hi
        have hget : (h :: rest).get ⟨j + 1, hi⟩ = rest.get ⟨j, hj⟩ := rfl
        rw [hget]
        have hmemr : rest.get ⟨j, hj⟩ ∈ rest := List.get_mem rest j hj
        have hne : rest.get ⟨j, hj⟩ ≠ h := fun e => hh (e ▸ hmemr)
        unfold populate_args
        rw [populateLoop]
        by_cases hr : 0 = 0 ∧ (h = "self" ∨ h = "cls")
        · rw [if_pos hr]
          exact populateLoop_lookup_pos sent custom rest 1 [] _ hndr one_ne_zero hmemr rfl
        · rw [if_neg hr]
          cases hc : lookupA custom h with
          | some v =>
            simp only [hc]
            exact populateLoop_lookup_pos sent custom rest 1 _ _ hndr one_ne_zero hmemr
              (by rw [lookupA_dictSet_ne _ _ _ _ hne]; rfl)
          | none =>
            simp only [hc]
            cases hs : lookupA sent h with
            | some v =>
              simp only [hs]
              by_cases hpriv : h.startsWith "_"
              · simp only [if_pos hpriv]
                exact populateLoop_lookup_pos sent custom rest 1 [] _ hndr one_ne_zero
                  hmemr rfl
              · simp only [if_neg hpriv]
                exact populateLoop_lookup_pos sent custom rest 1 _ _ hndr one_ne_zero hmemr
                  (by rw [lookupA_dictSet_ne _ _ _ _ hne]; rfl)
            | none =>
              simp only [hs]
              exact populateLoop_lookup_pos sent custom rest 1 [] _ hndr one_ne_zero
                hmemr rfl

/-- Witness for C2 at the concrete example of the spec: the declared
parameter user_id is present both in the environment (env-1) and in the
caller arguments (caller-1); the bound value is the environment one. -/
theorem c2_witness :
    lookupA (populate_args ["self", "user_id"]
        [("user_id", Value.vstr "caller-1")] [("user_id", Value.vstr "env-1")])
        "user_id" = some (Value.vstr "env-1") := by
  have h := (c2_populate_args_binding ["self", "user_id"]
      [("user_id", Value.vstr "caller-1")] [("user_id", Value.vstr "env-1")]
      (by decide)).2 1 (by decide) (by decide)
  exact h.trans rfl

/-- Python `type(v).__name__` on an embedded value.  Following Python 2,
int and long are distinct types, bool is its own type (though an
instance of int), and a resource instance reports its class name. -/
def pyTypeName : Value → String
  | .vnone => "NoneType"
  | .vstr _ => "str"
  | .vint _ => "int"
  | .vlong _ => "long"
  | .vfloat _ => "float"
  | .vbool _ => "bool"
  | .vlist _ => "list"
  | .vtuple _ => "tuple"
  | .vdict _ => "dict"
  | .vdatetime _ => "datetime"
  | .vres clsName _ => clsName

/-- Python `v is None`. -/
def isNone : Value → Bool
  | .vnone => true
  | _ => false

/-- Python str.lower(), character by character. -/
def pyLower (s : String) : String :=
  ⟨s.data.map Char.toLower⟩

/-- serialization.py lines 77-108: the conversion step of convert_arg for
a declared type name given as a string (so, per lines 70-75, the local
converter is json_decode exactly when the type name is the string json,
and json_decode is the identity and never raises, per lines 47-48).
Notes on individual branches:
  list (line 79): _convert_list calls json_decode, which is the identity
    and never raises ValueError, so the string comes back unchanged;
  datetime (lines 82-83 and 107-108): _convert_datetime and the
    elif branch call isoformat_to_date / ParseError /
    timestamp_to_datetime, none of which is defined or imported in
    serialization.py, so these paths raise NameError;
  dict (line 85): json_decode is the identity;
  int / long / float (lines 86-91): numeric literal parsing is modelled
    on integral literals (the spec treats the primitive coercion table as
    an external collaborator); a non-parsing literal raises ValueError;
  Python 2 isinstance facts used for the non-string branches: bool is an
  instance of int, long is not an instance of int. -/
def convStep (typeName_arg : String) (value : Value) : Except PyErr Value :=
  match value with
  | .vstr s =>
    if typeName_arg = "list" then .ok (.vstr s)
    else if typeName_arg = "tuple" then .ok (.vtuple [.vstr s])
    else if typeName_arg = "datetime" then .error (.nameError "ParseError")
    else if typeName_arg = "dict" then .ok (.vstr s)
    else if typeName_arg = "int" then
      match s.toInt? with
      | some n => .ok (.vint n)
      | Option.none => .error (.valueError "invalid literal for int")
    else if typeName_arg = "long" then
      match s.toInt? with
      | some n => .ok (.vlong n)
      | Option.none => .error (.valueError "invalid literal for long")
    else if typeName_arg = "float" then
      match s.toInt? with
      | some n => .ok (.vfloat n)
      | Option.none => .error (.valueError "could not convert string to float")
    else if typeName_arg = "bool" then
      .ok (.vbool (pyLower s = "true" || pyLower s = "yes" || pyLower s = "1"))
    else if typeName_arg = "json" then .ok (.vstr s)
    else .ok (.vstr s)
  | .vint n =>
    if typeName_arg = "datetime" then .error (.nameError "timestamp_to_datetime")
    else .ok (.vint n)
  | .vbool b =>
    if typeName_arg = "datetime" then .error (.nameError "timestamp_to_datetime")
    else .ok (.vbool b)
  | .vfloat n =>
    if typeName_arg = "datetime" then .error (.nameError "timestamp_to_datetime")
    else .ok (.vfloat n)
  | other => .ok other

/-- serialization.py convert_arg (lines 69-113) for a declared type name
given as a string: the conversion step of lines 77-108 followed by the
final check of lines 110-111, which raises TypeError only when the value
is not None, the post-conversion runtime type name differs from the
declared name, and the local converter is falsy (for a string type name,
the converter is json_decode exactly when the name is json). -/
def convert_arg (typeName_arg : String) (value : Value) : Except PyErr Value :=
  match convStep typeName_arg value with
  | .error e => .error e
  | .ok v =>
    if isNone v = false ∧ pyTypeName v ≠ typeName_arg ∧ typeName_arg ≠ "json" then
      .error (.typeError ("Expecting type " ++ typeName_arg))
    else .ok v

/-- C8 counterexample: the claim predicts a type-mismatch error whenever
the post-conversion runtime type name differs from the declared name and
no custom converter was supplied, but (1) a None value is exempted by
the `value is not None` guard of line 110, and (2) for the declared name
json the internal json_decode converter makes `not converter` false, so
no error is raised there either. -/
theorem c8_counterexample :
    (pyTypeName Value.vnone ≠ "int" ∧
      convert_arg "int" Value.vnone = .ok Value.vnone) ∧
    (pyTypeName (Value.vstr "x") ≠ "json" ∧
      convert_arg "json" (Value.vstr "x") = .ok (Value.vstr "x")) := by
  refine ⟨⟨by decide, ?_⟩, ⟨by decide, ?_⟩⟩ <;> rfl

/-- C8 (amended): when the conversion step completes, convert_arg raises
the type-mismatch error exactly when the post-conversion value is not
None, its runtime type name differs from the declared type name, and the
declared name is not json (no custom converter being supplied, the
declared name being a string). -/
theorem c8_typemismatch_iff (typeName_arg : String) (value v : Value)
    (h : convStep typeName_arg value = .ok v) :
    convert_arg typeName_arg value =
        .error (.typeError ("Expecting type " ++ typeName_arg)) ↔
      (isNone v = false ∧ pyTypeName v ≠ typeName_arg ∧ typeName_arg ≠ "json") := by
  unfold convert_arg
  rw [h]
  dsimp only
  by_cases hc : isNone v = false ∧ pyTypeName v ≠ typeName_arg ∧ typeName_arg ≠ "json"
  · rw [if_pos hc]
    exact ⟨fun _ => hc, fun _ => rfl⟩
  · rw [if_neg hc]
    exact ⟨fun he => absurd he (by simp), fun hx => absurd hx hc⟩

/-- Witness for C8: converting the Python bool True under declared type
int completes with a bool, whose type name differs from int, so the
type-mismatch error is raised. -/
theorem c8_witness :
    convert_arg "int" (Value.vbool true) =
      .error (.typeError ("Expecting type " ++ "int")) :=
  (c8_typemismatch_iff "int" (Value.vbool true) (Value.vbool true) rfl).mpr
    (by decide)

/-- A resource access predicate (the _has_access / _has_class_access
contract): its declared parameter names, used by populate_args, and its
boolean body applied to the bound keyword arguments. -/
structure AccessPred where
  argSpec : List String
  impl : List (String × Value) → Bool

/-- An exported-method descriptor: the registration contract the spec
collapses the decorator sugar into (decorators.py attaches _is_exported,
_permission, _method_type to the wrapped callable; the declared
parameter names are what getargspec reports).  `impl` is the method body
applied to the bound keyword arguments. -/
structure MethodDef where
  isExported : Bool
  permission : String
  methodType : String
  argSpec : List String
  impl : List (String × Value) → Except PyErr Value

/-- A dispatchable attribute of a resource class: a decorated (settable)
property descriptor, or a callable method. -/
inductive ClassAttr where
  | prop
  | meth (d : MethodDef)

/-- A resource instance.  `props` holds the current values of its
decorated properties (property getters are modelled as returning the
stored value); `instAccess` is the result of getattr for the configured
instance access-method name; `commitImpl` is the result of getattr for
the configured commit-method name. -/
structure Instance where
  props : List (String × Value)
  instAccess : Option AccessPred
  commitImpl : Option (List (String × Value) → Except PyErr Value)

/-- A registered resource class.  `attrs` maps lowercased attribute
names to their dispatch category; `classAccess` is the result of getattr
for the configured class access-method name; `construct` embeds
`resource_class(**instance_args)`. -/
structure ResClass where
  attrs : List (String × ClassAttr)
  classAccess : Option AccessPred
  construct : List (String × Value) → Except PyErr Instance

/-- The state of an API object after __init__ (resource.py lines 85-97):
exactly the attributes the constructor assigns.  The constructor
receives an access_level_method_name parameter but never stores it on
self, so there is no such field here; _access_level reads the missing
attribute (line 123) and raises AttributeError. -/
structure APIState where
  module_root : Option String
  commit_method_name : String
  access_method_name : String
  class_access_method_name : String
  serialization_method_name : String
  permission_order : List String
  method_names : List String
  resource_classes : List (String × ResClass)
  is_transactional : List (String × Bool)

/-- API._access_level (resource.py lines 118-140).  Its first statement,
`getattr(resource_instance, self.access_level_method_name, None)` at
line 123, reads self.access_level_method_name, an attribute __init__
never assigns (lines 85-92), so every call raises AttributeError before
anything else in the body can run. -/
def accessLevel (api : APIState) (inst : Instance)
    (env : List (String × Value)) : Except PyErr (Option String) :=
  .error (.attributeError "access_level_method_name")

/-- The for loop of lines 134-138 of _access_level, as it would run had
line 123 succeeded and had the two-argument populate_args call of line
125 not applied (no best-access-level method on the instance): the loop
state is the access_level local, initially None.  When the predicate
returns true, line 137 assigns the found permission to the access_method
local, not to access_level, and breaks - so access_level is returned
unchanged. -/
def accessLevelFallbackLoop (env : List (String × Value)) (pred : AccessPred) :
    List String → Option String → Option String
  | [], accessLevel_var => accessLevel_var
  | p :: rest, accessLevel_var =>
    let kwargs := populate_args pred.argSpec [("permission", Value.vstr p)] env
    if pred.impl kwargs then accessLevel_var
    else accessLevelFallbackLoop env pred rest accessLevel_var

/-- Lines 128-140 of _access_level (the fallback branch for a resource
with no best-access-level method), as they would run had line 123
succeeded: look up the access method; if present, run the permission
loop (which never reassigns access_level); return access_level. -/
def accessLevelFallback (api : APIState) (accessMeth : Option AccessPred)
    (env : List (String × Value)) : Option String :=
  match accessMeth with
  | Option.none => Option.none
  | some pred => accessLevelFallbackLoop env pred api.permission_order Option.none

/-- Sequencing of the encoding loop over the elements of a container:
the first element whose encoding runs out of fuel makes the whole loop
run out of fuel, the first element whose encoding raises propagates its
exception, otherwise the encoded elements are collected in order. -/
def seqResults : List (Option (Except PyErr Value)) → Option (Except PyErr (List Value))
  | [] => some (.ok [])
  | Option.none :: _ => Option.none
  | some (.error e) :: _ => some (.error e)
  | some (.ok v) :: rest =>
    match seqResults rest with
    | Option.none => Option.none
    | some (.error e) => some (.error e)
    | some (.ok vs) => some (.ok (v :: vs))

/-- Iterating a Python string yields its characters, each of which is
itself a string of length one. -/
def strChars (s : String) : List Value :=
  s.toList.map (fun c => Value.vstr (String.singleton c))

/-- The inner _encode closure of API.encode (resource.py lines 144-172),
indexed by fuel: `Option.none` means the recursion does not finish
within the given fuel (in CPython, the unbounded recursion hits the
interpreter recursion limit).  Branches, in source order:
  line 149: objects with a truthy _IS_RESOURCE attribute: line 151 calls
    self._access_level(obj, environment) - note with the outer obj, not
    inner_obj - which raises AttributeError immediately (see accessLevel),
    before the serializer is even looked up at line 153;
  line 161: Mapping instances recurse over the values keeping the keys;
  line 166: Iterable instances are rebuilt as a list of encoded
    elements - Python strings are Iterable, so a string is iterated into
    its one-character strings rather than passed through;
  everything else is returned unchanged. -/
def encodeF (api : APIState) (env : List (String × Value)) :
    Nat → Value → Option (Except PyErr Value)
  | 0, _ => Option.none
  | Nat.succ fuel, v =>
    match v with
    | .vres _ _ => some (.error (.attributeError "access_level_method_name"))
    | .vdict kvs =>
      match seqResults (kvs.map (fun kv => encodeF api env fuel kv.2)) with
      | Option.none => Option.none
      | some (.error e) => some (.error e)
      | some (.ok ws) => some (.ok (.vdict ((kvs.map Prod.fst).zip ws)))
    | .vstr s =>
      match seqResults ((strChars s).map (encodeF api env fuel)) with
      | Option.none => Option.none
      | some (.error e) => some (.error e)
      | some (.ok ws) => some (.ok (.vlist ws))
    | .vlist xs =>
      match seqResults (xs.map (encodeF api env fuel)) with
      | Option.none => Option.none
      | some (.error e) => some (.error e)
      | some (.ok ws) => some (.ok (.vlist ws))
    | .vtuple xs =>
      match seqResults (xs.map (encodeF api env fuel)) with
      | Option.none => Option.none
      | some (.error e) => some (.error e)
      | some (.ok ws) => some (.ok (.vlist ws))
    | other => some (.ok other)

/-- A denying access predicate for the concrete test resource: it
refuses every permission, as in the spec scenario where read access is
denied. -/
def prDeny : AccessPred :=
  { argSpec := ["self", "permission"], impl := fun _ => false }

/-- A granting access predicate: it accepts every permission, in
particular the first probed one. -/
def prAllow : AccessPred :=
  { argSpec := ["self", "permission"], impl := fun _ => true }

/-- A concrete resource instance with one decorated property p, an
instance access method, and no commit hook. -/
def instC : Instance :=
  { props := [("p", Value.vint 0)], instAccess := some prDeny,
    commitImpl := Option.none }

/-- A concrete resource instance exposing a commit hook. -/
def instHook : Instance :=
  { props := [], instAccess := some prDeny,
    commitImpl := some (fun _ => .ok Value.vnone) }

/-- The concrete resource class: one decorated property p, a class
access method that denies every permission, and a constructor returning
instC. -/
def clsC : ResClass :=
  { attrs := [("p", ClassAttr.prop)], classAccess := some prDeny,
    construct := fun _ => .ok instC }

/-- An API in its default configuration with one registered transactional
resource R (of class clsC) and one registered non-transactional name N. -/
def apiC : APIState :=
  { module_root := Option.none,
    commit_method_name := "_commit",
    access_method_name := "_has_access",
    class_access_method_name := "_has_class_access",
    serialization_method_name := "_serialize",
    permission_order := ["write", "read"],
    method_names := ["_commit", "_has_access", "_has_class_access", "_serialize"],
    resource_classes := [("R", clsC)],
    is_transactional := [("R", true), ("N", false)] }

/-- C4: the claim says that for a resource without a best-access-level
function, _access_level probes the ordered permission list and returns
the first permission the predicate grants.  In the code, every call to
_access_level raises AttributeError instead, because __init__ never
assigns self.access_level_method_name (first conjunct); and even the
fallback loop it would then run assigns the found permission to the
wrong variable (access_method, line 137), so a predicate granting write
would still yield None rather than write (second conjunct). -/
theorem c4_access_level_raises :
    accessLevel apiC instC [] = .error (.attributeError "access_level_method_name") ∧
    accessLevelFallback apiC (some prAllow) [] = Option.none :=
  ⟨rfl, rfl⟩

/-- C5: the claim says an embedded registered resource instance is
serialized by calling its serializer with the resolved access level and
that no un-serialized resource remains in the output.  In the code,
encoding any value containing a resource instance raises AttributeError
inside _access_level (line 151) before the serializer is even looked up:
shown for a bare resource instance with a serializer, and for a mapping
embedding a resource instance. -/
theorem c5_encode_resource_raises :
    encodeF apiC [] 5 (Value.vres "Tag" (some (Value.vdict [("id", Value.vint 7)]))) =
      some (.error (.attributeError "access_level_method_name")) ∧
    encodeF apiC [] 5 (Value.vdict [("id", Value.vint 7),
        ("tag", Value.vres "Tag" Option.none)]) =
      some (.error (.attributeError "access_level_method_name")) :=
  ⟨rfl, rfl⟩

/-- C9: the claim says encode terminates on every finite acyclic value
and passes strings through.  In the code, a Python string is an Iterable
whose iteration yields one-character strings, themselves nonempty
strings, so encoding the string a recurses on the string a forever: no
amount of fuel makes the evaluation finish. -/
theorem c9_encode_string_diverges (api : APIState) (env : List (String × Value)) :
    ∀ fuel : Nat, encodeF api env fuel (Value.vstr "a") = Option.none := by
  intro fuel
  induction fuel with
  | zero => rfl
  | succ n ih =>
    have h0 : strChars "a" = [Value.vstr "a"] := rfl
    have h1 : (strChars "a").map (encodeF api env n) = [Option.none] := by
      rw [h0, List.map_cons, List.map_nil, ih]
    rw [encodeF]
    rw [h1]
    rfl

/-- A call-batch item (resource.py lines 207-213): a bare method name,
invoked with an empty caller-argument mapping, or a dict-form item; per
the call-batch item format of the transport contract, dict-form items
are assumed to carry both the method and args keys. -/
inductive CallItem where
  | name (s : String)
  | call (method : String) (args : List (String × Value))

/-- The method name of a call item. -/
def itemName : CallItem → String
  | .name s => s
  | .call m _ => m

/-- The caller-argument mapping of a call item. -/
def itemArgs : CallItem → List (String × Value)
  | .name _ => []
  | .call _ a => a

/-- Line 215: method_name = method_name.lower(). -/
def itemKey (it : CallItem) : String :=
  pyLower (itemName it)

/-- The outcome of a dispatcher-side computation: the log of underlying
resource callables actually invoked, paired with the result or the
propagated exception. -/
def Res (α : Type) : Type :=
  List String × Except PyErr α

/-- API._call (resource.py lines 185-203).  The parent and
access_method_name parameters are modelled by the getattr result
accessMeth that the caller resolves.  After the access-method presence
check of lines 191-193, line 196 evaluates method._method_type (when
allowed_method_types is not None) and line 200 evaluates
method._permission (when it is None); in both cases the local `method`
is not bound until the loop at line 207, so an UnboundLocalError on the
name method is raised.  The access predicate is therefore never
evaluated, no method of the batch runs (the log is empty), and the
AccessDenied raise of lines 202-203 is unreachable.  The per-method loop
of lines 205-276 is modelled separately as callLoop below. -/
def callM (api : APIState) (cls : ResClass) (accessMeth : Option AccessPred)
    (methods : List CallItem) (env : List (String × Value))
    (allowed : Option (List String)) (enc : Bool) : Res (List Value) :=
  match accessMeth with
  | Option.none => ([], .error (.methodNotFound "is missing an access method"))
  | some _ => ([], .error (.nameError "method"))

/-- API._commit (resource.py lines 282-293).  For a transactional name
whose instance exposes a commit hook, line 288 calls
populate_args(commit_method, environment) with two arguments while
populate_args takes exactly three, raising TypeError before the hook can
run; and line 289 would then call commit_result - still None at that
point - instead of commit_method.  The hook is therefore never invoked
and the log is empty in every case. -/
def commitM (api : APIState) (name : String) (inst : Instance)
    (env : List (String × Value)) (enc : Bool) : Res Value :=
  if (lookupA api.is_transactional name).getD true then
    match inst.commitImpl with
    | some _ => ([], .error (.typeError "populate_args takes exactly 3 arguments"))
    | Option.none => ([], .ok Value.vnone)
  else ([], .ok Value.vnone)

/-- API._class_call (lines 295-307): resolve the resource class (raising
ResourceNotFoundError for an unknown name, lines 176-183) and run _call
with the class itself as parent, so with its class access method. -/
def classCall (api : APIState) (name : String) (methods : List CallItem)
    (env : List (String × Value)) (allowed : List String) (enc : Bool) :
    Res (List Value) :=
  match lookupA api.resource_classes name with
  | Option.none => ([], .error (.notFound name))
  | some cls => callM api cls cls.classAccess methods env (some allowed) enc

/-- API.lookup (lines 311-314); the default allowed method types are
passed by the caller as the allowed argument. -/
def lookupOp (api : APIState) (name : String) (methods : List CallItem)
    (env : List (String × Value)) (allowed : List String) (enc : Bool) :
    Res (List Value) :=
  classCall api name methods env allowed enc

/-- API.execute (lines 316-319). -/
def executeOp (api : APIState) (name : String) (methods : List CallItem)
    (env : List (String × Value)) (allowed : List String) (enc : Bool) :
    Res (List Value) :=
  classCall api name methods env allowed enc

/-- API.read (lines 363-379): resolve the class, construct the instance
from the construction arguments, and run _call with the instance access
method. -/
def readOp (api : APIState) (name : String) (methods : List CallItem)
    (instanceArgs env : List (String × Value)) (allowed : List String)
    (enc : Bool) : Res (List Value) :=
  match lookupA api.resource_classes name with
  | Option.none => ([], .error (.notFound name))
  | some cls =>
    match cls.construct instanceArgs with
    | .error e => ([], .error e)
    | .ok inst => callM api cls inst.instAccess methods env (some allowed) enc

/-- The response dict of API.update (lines 399-402): the result list and
the always-present commit key (holding Python None when _commit returned
None). -/
structure Envelope where
  result : List Value
  commit : Value

/-- API.update (lines 381-402): resolve the class, construct the
instance, run _call, then build the response dict, evaluating _commit
for the commit slot. -/
def update (api : APIState) (name : String) (methods : List CallItem)
    (instanceArgs env : List (String × Value)) (allowed : List String)
    (enc : Bool) : Res Envelope :=
  match lookupA api.resource_classes name with
  | Option.none => ([], .error (.notFound name))
  | some cls =>
    match cls.construct instanceArgs with
    | .error e => ([], .error e)
    | .ok inst =>
      match callM api cls inst.instAccess methods env (some allowed) enc with
      | (t, .error e) => (t, .error e)
      | (t, .ok result) =>
        match commitM api name inst env enc with
        | (t2, .error e) => (t ++ t2, .error e)
        | (t2, .ok c) => (t ++ t2, .ok { result := result, commit := c })

/-- The response dict of API.delete: the single unwrapped result and the
commit slot. -/
structure DeleteEnvelope where
  result : Value
  commit : Value

/-- API.delete (lines 404-409): update on the one-element batch, then
result['result'] = result['result'][0], an IndexError when the result
list is empty. -/
def deleteOp (api : APIState) (name : String) (method : CallItem)
    (instanceArgs env : List (String × Value)) (allowed : List String)
    (enc : Bool) : Res DeleteEnvelope :=
  match update api name [method] instanceArgs env allowed enc with
  | (t, .error e) => (t, .error e)
  | (t, .ok envl) =>
    match envl.result with
    | [] => (t, .error .indexError)
    | v :: _ => (t, .ok { result := v, commit := envl.commit })

/-- Refinement target for C7, following the words of the spec: delete is
update specialized to a single method call, with the single result
unwrapped from its one-element sequence, never itself a sequence (a
result sequence that is not one-element has no specified unwrapping and
is taken to fail). -/
def deleteSpec (api : APIState) (name : String) (method : CallItem)
    (instanceArgs env : List (String × Value)) (allowed : List String)
    (enc : Bool) : Res DeleteEnvelope :=
  match update api name [method] instanceArgs env allowed enc with
  | (t, .error e) => (t, .error e)
  | (t, .ok envl) =>
    match envl.result with
    | [v] => (t, .ok { result := v, commit := envl.commit })
    | _ => (t, .error .indexError)

/-- API.create (lines 321-361): phase one invokes the single creation
method through _call on the class, with allowed method types ('create',)
and encoding off.  _call raises before returning (see callM), so the
remainder of create (lines 340-361) is unreachable; were it reached,
line 342 reads the undefined name class_name when the isinstance check
fails, and with a None or empty follow-up batch the guard at line 344
never assigns the local `result`, so the envelope at line 359 raises
UnboundLocalError on it - which is how the unreachable continuation is
modelled here. -/
def create (api : APIState) (name createMethodName : String)
    (creationArgs : List (String × Value)) (methods : Option (List CallItem))
    (env : List (String × Value)) (allowed : List String) (enc : Bool) :
    Res Value :=
  match lookupA api.resource_classes name with
  | Option.none => ([], .error (.notFound name))
  | some cls =>
    match callM api cls cls.classAccess [CallItem.call createMethodName creationArgs]
        env (some ["create"]) false with
    | (t, .error e) => (t, .error e)
    | (t, .ok _) => (t, .error (.nameError "result"))

/-- The per-method dispatch loop of API._call (lines 205-276), modelled
on its own: in the source this loop is unreachable because lines 196/200
raise first.  For a decorated property (lines 224-244): zero caller
arguments read the property; caller arguments containing the property
name write it and append the written value; caller arguments present but
not containing the property name run neither branch of lines 230-235, so
nothing is appended for that item.  Property getters and setters are
modelled as total field access, so the try/except of lines 229-244 has
nothing to catch.  For a callable class attribute (lines 246-270): the
method must be exported, its keyword arguments are bound by
populate_args from the caller arguments and the environment, and an
exception from the body is wrapped as ResourceMethodFailedError.
Reserved names (line 217) and missing attributes (line 271) raise
ResourceMethodNotFoundError.  The encode step of lines 277-278 is
outside the loop and not part of the raw result sequence. -/
def callLoop (api : APIState) (cls : ResClass) (env : List (String × Value)) :
    List CallItem → Instance → List Value → Except PyErr (Instance × List Value)
  | [], inst, result => .ok (inst, result)
  | item :: rest, inst, result =>
    if itemKey item ∈ api.method_names then
      .error (.methodNotFound (itemKey item))
    else
      match lookupA cls.attrs (itemKey item) with
      | some ClassAttr.prop =>
        if (itemArgs item).length = 0 then
          callLoop api cls env rest inst
            (result ++ [(lookupA inst.props (itemKey item)).getD Value.vnone])
        else
          match lookupA (itemArgs item) (itemKey item) with
          | some v =>
            callLoop api cls env rest
              { inst with props := dictSet inst.props (itemKey item) v }
              (result ++ [v])
          | Option.none => callLoop api cls env rest inst result
      | some (ClassAttr.meth d) =>
        if d.isExported then
          match d.impl (populate_args d.argSpec (itemArgs item) env) with
          | .error _ => .error (.methodFailed (itemKey item))
          | .ok v => callLoop api cls env rest inst (result ++ [v])
        else .error (.methodNotFound (itemKey item))
      | Option.none => .error (.methodNotFound (itemKey item))

/-- A call item the loop silently skips: a decorated property invoked
with a nonempty caller-argument mapping that does not contain the
property name. -/
def itemSkipped (cls : ResClass) (it : CallItem) : Bool :=
  match lookupA cls.attrs (itemKey it) with
  | some ClassAttr.prop =>
    if (itemArgs it).length = 0 then false
    else (lookupA (itemArgs it) (itemKey it)).isNone
  | _ => false

/-- The per-method loop of lines 205-276 once more, with the raw results
kept as one block per call item instead of a single flat sequence: the
k-th block is the contribution of the k-th call item (empty exactly for
a skipped property item, a single raw result otherwise), and the blocks
appear in request order.  The branch structure is identical to callLoop;
this per-item decomposition is what the request-order correspondence of
the collect step is stated against. -/
def callLoopBlocks (api : APIState) (cls : ResClass) (env : List (String × Value)) :
    List CallItem → Instance → Except PyErr (Instance × List (List Value))
  | [], inst => .ok (inst, [])
  | item :: rest, inst =>
    if itemKey item ∈ api.method_names then
      .error (.methodNotFound (itemKey item))
    else
      match lookupA cls.attrs (itemKey item) with
      | some ClassAttr.prop =>
        if (itemArgs item).length = 0 then
          match callLoopBlocks api cls env rest inst with
          | .error e => .error e
          | .ok (inst2, bs) =>
            .ok (inst2, [(lookupA inst.props (itemKey item)).getD Value.vnone] :: bs)
        else
          match lookupA (itemArgs item) (itemKey item) with
          | some v =>
            match callLoopBlocks api cls env rest
                { inst with props := dictSet inst.props (itemKey item) v } with
            | .error e => .error e
            | .ok (inst2, bs) => .ok (inst2, [v] :: bs)
          | Option.none =>
            match callLoopBlocks api cls env rest inst with
            | .error e => .error e
            | .ok (inst2, bs) => .ok (inst2, [] :: bs)
      | some (ClassAttr.meth d) =>
        if d.isExported then
          match d.impl (populate_args d.argSpec (itemArgs item) env) with
          | .error _ => .error (.methodFailed (itemKey item))
          | .ok v =>
            match callLoopBlocks api cls env rest inst with
            | .error e => .error e
            | .ok (inst2, bs) => .ok (inst2, [v] :: bs)
        else .error (.methodNotFound (itemKey item))
      | Option.none => .error (.methodNotFound (itemKey item))

theorem callM_errors (api : APIState) (cls : ResClass) (accessMeth : Option AccessPred)
    (methods : List CallItem) (env : List (String × Value))
    (allowed : Option (List String)) (enc : Bool) :
    ∃ e, callM api cls accessMeth methods env allowed enc = ([], .error e) := by
  cases accessMeth with
  | none => exact ⟨.methodNotFound "is missing an access method", rfl⟩
  | some p => exact ⟨.nameError "method", rfl⟩

theorem update_always_errors (api : APIState) (name : String) (methods : List CallItem)
    (instanceArgs env : List (String × Value)) (allowed : List String) (enc : Bool) :
    ∃ t e, update api name methods instanceArgs env allowed enc = (t, .error e) := by
  cases hr : lookupA api.resource_classes name with
  | none => exact ⟨[], .notFound name, by simp [update, hr]⟩
  | some cls =>
    cases hc : cls.construct instanceArgs with
    | error e => exact ⟨[], e, by simp [update, hr, hc]⟩
    | ok inst =>
      obtain ⟨e, he⟩ := callM_errors api cls inst.instAccess methods env (some allowed) enc
      exact ⟨[], e, by simp [update, hr, hc, he]⟩

/-- C1: the claim says a dispatch against a resource whose access
predicate denies the required permission raises AccessDenied before any
batch method is invoked.  In the code the dispatcher raises
UnboundLocalError on the local name method (resource.py lines 196/200)
before the access predicate is even evaluated; nothing is invoked (the
invocation log is empty), but the raised error is a NameError, not
AccessDenied.  Shown for a lookup batch and an update batch against the
registered resource R, whose class and instance access predicates deny
every permission. -/
theorem c1_dispatch_unbound_local :
    lookupOp apiC "R" [CallItem.name "read_prop"] [] ["lookup"] true =
      ([], .error (.nameError "method")) ∧
    update apiC "R" [CallItem.name "m"] [] [] ["read", "update", "delete"] true =
      ([], .error (.nameError "method")) :=
  ⟨rfl, rfl⟩

/-- C3: the claim says a transactional resource with a commit hook has
the hook invoked exactly once after a successful write batch, a
non-transactional resource never, with the commit slot absent.  In the
code the hook is never invoked at all: for the transactional name R and
an instance with a hook, _commit raises TypeError at the two-argument
populate_args call of line 288, with an empty invocation log - the hook
did not run; for the registered non-transactional name N it returns
Python None (also without invoking anything), which update would store
under an always-present commit key rather than omit. -/
theorem c3_commit_never_invoked :
    commitM apiC "R" instHook [] true =
      ([], .error (.typeError "populate_args takes exactly 3 arguments")) ∧
    commitM apiC "N" instHook [] true = ([], .ok Value.vnone) :=
  ⟨rfl, rfl⟩

/-- C6 counterexample: a batch of one call item - a property call whose
nonempty argument mapping lacks the property name - completes the loop
with an empty raw result sequence, not one entry per call item. -/
theorem c6_counterexample :
    callLoop apiC clsC [] [CallItem.call "p" [("x", Value.vint 1)]] instC [] =
      .ok (instC, []) ∧
    ([] : List Value).length ≠ [CallItem.call "p" [("x", Value.vint 1)]].length :=
  ⟨rfl, by decide⟩

/-- C6 (amended): on a successful run of the dispatch call loop, the raw
result sequence is the concatenation, in request order, of one block per
call item - the k-th block belonging to the k-th call item, holding
exactly one raw result, except that a property item whose nonempty
caller arguments lack the property name contributes an empty block.  The
blocks are the ones the per-item decomposition callLoopBlocks computes
for the same batch from the same starting instance. -/
theorem c6_call_loop_result_count (api : APIState) (cls : ResClass)
    (env : List (String × Value)) :
    ∀ (items : List CallItem) (inst : Instance) (acc : List Value)
      (inst2 : Instance) (rs : List Value),
      callLoop api cls env items inst acc = .ok (inst2, rs) →
      ∃ blocks, callLoopBlocks api cls env items inst = .ok (inst2, blocks) ∧
        rs = acc ++ blocks.join ∧
        blocks.length = items.length ∧
        ∀ k (hk : k < items.length) (hkb : k < blocks.length),
          (blocks.get ⟨k, hkb⟩).length =
            if itemSkipped cls (items.get ⟨k, hk⟩) then 0 else 1 := by
  intro items
  induction items with
  | nil =>
    intro inst acc inst2 rs h
    rw [callLoop] at h
    cases h
    refine ⟨[], rfl, by simp, rfl, ?_⟩
    intro k hk hkb
    exact absurd hk (by simp)
  | cons item rest ih =>
    intro inst acc inst2 rs h
    rw [callLoop] at h
    by_cases hres : itemKey item ∈ api.method_names
    · rw [if_pos hres] at h
      cases h
    · rw [if_neg hres] at h
      cases hattr : lookupA cls.attrs (itemKey item) with
      | none =>
        rw [hattr] at h
        cases h
      | some attr =>
        rw [hattr] at h
        cases attr with
        | prop =>
          by_cases hlen : (itemArgs item).length = 0
          · rw [if_pos hlen] at h
            obtain ⟨bs, hb, h1, h2, h3⟩ := ih _ _ _ _ h
            refine ⟨[(lookupA inst.props (itemKey item)).getD Value.vnone] :: bs,
              ?_, ?_, ?_, ?_⟩
            · rw [callLoopBlocks, if_neg hres, hattr]
              dsimp only
              rw [if_pos hlen, hb]
            · rw [h1]
              simp [List.append_assoc]
            · simp [h2]
            · intro k hk hkb
              cases k with
              | zero => simp [itemSkipped, hattr, hlen]
              | succ j =>
                exact h3 j (by simpa using hk) (by simpa using hkb)
          · rw [if_neg hlen] at h
            cases hsent : lookupA (itemArgs item) (itemKey item) with
            | some v =>
              rw [hsent] at h
              obtain ⟨bs, hb, h1, h2, h3⟩ := ih _ _ _ _ h
              refine ⟨[v] :: bs, ?_, ?_, ?_, ?_⟩
              · rw [callLoopBlocks, if_neg hres, hattr]
                dsimp only
                rw [if_neg hlen, hsent]
                dsimp only
                rw [hb]
              · rw [h1]
                simp [List.append_assoc]
              · simp [h2]
              · intro k hk hkb
                cases k with
                | zero => simp [itemSkipped, hattr, hlen, hsent]
                | succ j =>
                  exact h3 j (by simpa using hk) (by simpa using hkb)
            | none =>
              rw [hsent] at h
              obtain ⟨bs, hb, h1, h2, h3⟩ := ih _ _ _ _ h
              refine ⟨[] :: bs, ?_, ?_, ?_, ?_⟩
              · rw [callLoopBlocks, if_neg hres, hattr]
                dsimp only
                rw [if_neg hlen, hsent]
                dsimp only
                rw [hb]
              · rw [h1]
                simp
              · simp [h2]
              · intro k hk hkb
                cases k with
                | zero => simp [itemSkipped, hattr, hlen, hsent]
                | succ j =>
                  exact h3 j (by simpa using hk) (by simpa using hkb)
        | meth d =>
          dsimp only at h
          by_cases hexp : d.isExported
          · rw [if_pos hexp] at h
            cases himpl : d.impl (populate_args d.argSpec (itemArgs item) env) with
            | error e =>
              rw [himpl] at h
              cases h
            | ok v =>
              rw [himpl] at h
              obtain ⟨bs, hb, h1, h2, h3⟩ := ih _ _ _ _ h
              refine ⟨[v] :: bs, ?_, ?_, ?_, ?_⟩
              · rw [callLoopBlocks, if_neg hres, hattr]
                dsimp only
                rw [if_pos hexp, himpl]
                dsimp only
                rw [hb]
              · rw [h1]
                simp [List.append_assoc]
              · simp [h2]
              · intro k hk hkb
                cases k with
                | zero => simp [itemSkipped, hattr]
                | succ j =>
                  exact h3 j (by simpa using hk) (by simpa using hkb)
          · rw [if_neg hexp] at h
            cases h

/-- Witness for C6 (amended): a one-item batch reading the property p
produces the single block of its one raw result, in request order. -/
theorem c6_witness :
    ∃ blocks, callLoopBlocks apiC clsC [] [CallItem.name "p"] instC =
        .ok (instC, blocks) ∧
      [Value.vint 0] = ([] : List Value) ++ blocks.join ∧
      blocks.length = [CallItem.name "p"].length ∧
      ∀ k (hk : k < [CallItem.name "p"].length) (hkb : k < blocks.length),
        (blocks.get ⟨k, hkb⟩).length =
          if itemSkipped clsC ([CallItem.name "p"].get ⟨k, hk⟩) then 0 else 1 :=
  c6_call_loop_result_count apiC clsC [] [CallItem.name "p"] instC [] instC
    [Value.vint 0] rfl

/-- C7: delete returns exactly what update on the one-element batch
returns, restricted to the allowed method types it is given (by default
the delete method type), with the single result unwrapped from its
one-element sequence and never itself a sequence: deleteOp coincides
with the spec-side deleteSpec on every input. -/
theorem c7_delete_refines_update (api : APIState) (name : String) (method : CallItem)
    (instanceArgs env : List (String × Value)) (allowed : List String) (enc : Bool) :
    deleteOp api name method instanceArgs env allowed enc =
      deleteSpec api name method instanceArgs env allowed enc := by
  obtain ⟨t, e, he⟩ := update_always_errors api name [method] instanceArgs env allowed enc
  unfold deleteOp deleteSpec
  rw [he]

/-- C10: a create call whose post-creation method batch is None or empty
raises an error rather than returning the instance/result/commit
envelope. -/
theorem c10_create_empty_batch_errors (api : APIState) (name cmn : String)
    (creationArgs : List (String × Value)) (methods : Option (List CallItem))
    (env : List (String × Value)) (allowed : List String) (enc : Bool)
    (h : methods = Option.none ∨ methods = some []) :
    ∃ t e, create api name cmn creationArgs methods env allowed enc =
      (t, .error e) := by
  cases hr : lookupA api.resource_classes name with
  | none => exact ⟨[], .notFound name, by simp [create, hr]⟩
  | some cls =>
    obtain ⟨e, he⟩ := callM_errors api cls cls.classAccess
      [CallItem.call cmn creationArgs] env (some ["create"]) false
    exact ⟨[], e, by simp [create, hr, he]⟩

/-- Witness for C10: a concrete create call with a None follow-up batch
against the registered resource R errors out. -/
theorem c10_witness :
    ∃ t e, create apiC "R" "make" [] Option.none [] ["read", "update", "create"] true =
      (t, .error e) :=
  c10_create_empty_batch_errors apiC "R" "make" [] Option.none []
    ["read", "update", "create"] true (Or.inl rfl)

end Resawesome
